import Mathlib

/-!
Verification of the openclaw gateway chat-run core: the chat-run registry,
the tool-event-recipient registry with lazy TTL eviction, the agent-event
handler (delta/final assembly, throttling, sequence tracking) and the
inbound channel-message handler.  The definitions below are a shallow
embedding of the TypeScript source; JavaScript `Map`s are modelled as
association lists over `String`, `Date.now()` as an explicit `now : Nat`
parameter (epoch milliseconds), and side effects as explicit output lists.
-/

namespace OpenClaw

/-! ### JavaScript `Map` model -/

/-- Model of a JS `Map<string, α>`: an association list in insertion order. -/
abbrev SMap (α : Type) : Type := List (String × α)

/-- JS `Map.get`: first binding for the key, if any. -/
def mapGet {α : Type} : SMap α → String → Option α
  | [], _ => none
  | (k', v) :: rest, k => if k' = k then some v else mapGet rest k

/-- JS `Map.set`: replace the binding in place if present, else append. -/
def mapSet {α : Type} : SMap α → String → α → SMap α
  | [], k, v => [(k, v)]
  | (k', v') :: rest, k, v =>
      if k' = k then (k, v) :: rest else (k', v') :: mapSet rest k v

/-- JS `Map.delete`: remove the binding for the key. -/
def mapDelete {α : Type} : SMap α → String → SMap α
  | [], _ => []
  | (k', v') :: rest, k =>
      if k' = k then mapDelete rest k else (k', v') :: mapDelete rest k

/-- JS `Map.has`. -/
def mapHas {α : Type} (m : SMap α) (k : String) : Bool :=
  (mapGet m k).isSome

/-! ### ChatRunRegistry (source: `createChatRunRegistry`) -/

/-- Correlation of an externally visible run id with its session. -/
structure ChatRunEntry where
  sessionKey : String
  clientRunId : String
deriving DecidableEq, Repr

/-- State of the chat-run registry: sessionId → pending entries (FIFO). -/
abbrev ChatRunReg : Type := SMap (List ChatRunEntry)

/-- Source `add(sessionId, entry)`: push onto the session queue, creating it if absent. -/
def regAdd (reg : ChatRunReg) (sessionId : String) (entry : ChatRunEntry) : ChatRunReg :=
  match mapGet reg sessionId with
  | some queue => mapSet reg sessionId (queue ++ [entry])
  | none => mapSet reg sessionId [entry]

/-- Source `peek(sessionId)`: head of the session queue without removing it. -/
def regPeek (reg : ChatRunReg) (sessionId : String) : Option ChatRunEntry :=
  (mapGet reg sessionId).bind List.head?

/-- Source `shift(sessionId)`: pop the head entry, deleting the queue if it empties. -/
def regShift (reg : ChatRunReg) (sessionId : String) : Option ChatRunEntry × ChatRunReg :=
  match mapGet reg sessionId with
  | none => (none, reg)
  | some [] => (none, reg)
  | some (entry :: rest) =>
      (some entry, if rest = [] then mapDelete reg sessionId else mapSet reg sessionId rest)

/-- The match used by `remove`'s `findIndex`: `clientRunId` equality and,
when a truthy `sessionKey` argument is given, `sessionKey` equality. -/
def entryMatches (clientRunId : String) (sessionKey : Option String) (e : ChatRunEntry) : Bool :=
  e.clientRunId == clientRunId &&
    match sessionKey with
    | some sk => if sk = "" then true else e.sessionKey == sk
    | none => true

/-- JS `findIndex` + `splice(idx, 1)`: remove the first matching entry, returning
it together with the remaining queue. -/
def removeFromQueue (clientRunId : String) (sessionKey : Option String) :
    List ChatRunEntry → Option (ChatRunEntry × List ChatRunEntry)
  | [] => none
  | e :: rest =>
      if entryMatches clientRunId sessionKey e then some (e, rest)
      else (removeFromQueue clientRunId sessionKey rest).map (fun p => (p.1, e :: p.2))

/-- Source `remove(sessionId, clientRunId, sessionKey?)`: remove the first matching
entry anywhere in the queue, deleting the queue if it empties. -/
def regRemove (reg : ChatRunReg) (sessionId clientRunId : String)
    (sessionKey : Option String) : Option ChatRunEntry × ChatRunReg :=
  match mapGet reg sessionId with
  | none => (none, reg)
  | some queue =>
      if queue = [] then (none, reg)
      else
        match removeFromQueue clientRunId sessionKey queue with
        | none => (none, reg)
        | some (entry, rest) =>
            (some entry, if rest = [] then mapDelete reg sessionId else mapSet reg sessionId rest)

/-- Iterated `shift`: pop `n` entries, collecting them in pop order. -/
def regShiftN (reg : ChatRunReg) (sessionId : String) : Nat → List ChatRunEntry × ChatRunReg
  | 0 => ([], reg)
  | n + 1 =>
      match regShift reg sessionId with
      | (none, reg') => ([], reg')
      | (some e, reg') =>
          let r := regShiftN reg' sessionId n
          (e :: r.1, r.2)

/-! ### ToolEventRecipientRegistry (source: `createToolEventRecipientRegistry`) -/

/-- One registry entry: subscriber connection ids plus eviction timestamps. -/
structure ToolRecipientEntry where
  connIds : List String
  updatedAt : Nat
  finalizedAt : Option Nat
deriving DecidableEq, Repr

def TOOL_EVENT_RECIPIENT_TTL_MS : Nat := 10 * 60 * 1000

def TOOL_EVENT_RECIPIENT_FINAL_GRACE_MS : Nat := 30 * 1000

/-- Eviction cutoff of an entry.  `entry.finalizedAt ? ... : ...` is a JS
truthiness test, so `finalizedAt = 0` falls back to the TTL branch. -/
def entryCutoff (e : ToolRecipientEntry) : Nat :=
  match e.finalizedAt with
  | some f => if f = 0 then e.updatedAt + TOOL_EVENT_RECIPIENT_TTL_MS
              else f + TOOL_EVENT_RECIPIENT_FINAL_GRACE_MS
  | none => e.updatedAt + TOOL_EVENT_RECIPIENT_TTL_MS

/-- Lazy sweep: delete every entry whose cutoff has passed (`now >= cutoff`). -/
def toolPrune (now : Nat) (s : SMap ToolRecipientEntry) : SMap ToolRecipientEntry :=
  s.filter (fun p => now < entryCutoff p.2)

/-- JS `Set.add`: append if absent (insertion order preserved). -/
def addConn (c : String) (l : List String) : List String :=
  if c ∈ l then l else l ++ [c]

/-- Source `add(runId, connId)`: no-op on falsy ids; else register and refresh
`updatedAt`, then prune. -/
def toolAdd (now : Nat) (s : SMap ToolRecipientEntry) (runId connId : String) :
    SMap ToolRecipientEntry :=
  if runId = "" ∨ connId = "" then s
  else
    let s' :=
      match mapGet s runId with
      | some e => mapSet s runId { e with connIds := addConn connId e.connIds, updatedAt := now }
      | none => mapSet s runId { connIds := [connId], updatedAt := now, finalizedAt := none }
    toolPrune now s'

/-- Source `get(runId)`: return early when absent; else refresh `updatedAt`, prune,
and return the connection-id set captured before the prune. -/
def toolGet (now : Nat) (s : SMap ToolRecipientEntry) (runId : String) :
    Option (List String) × SMap ToolRecipientEntry :=
  match mapGet s runId with
  | none => (none, s)
  | some e =>
      let s' := mapSet s runId { e with updatedAt := now }
      (some e.connIds, toolPrune now s')

/-- Source `markFinal(runId)`: stamp `finalizedAt` and prune. -/
def toolMarkFinal (now : Nat) (s : SMap ToolRecipientEntry) (runId : String) :
    SMap ToolRecipientEntry :=
  match mapGet s runId with
  | none => s
  | some e => toolPrune now (mapSet s runId { e with finalizedAt := some now })

/-! ### Agent events and chat payloads -/

/-- The `data` object of an agent event, restricted to the fields the handler
reads; a `some` value models a JS string-typed field. -/
structure EventData where
  text : Option String
  phase : Option String
  error : Option String
  result : Option String
  partResult : Option String
deriving DecidableEq, Repr

/-- Source `AgentEventPayload`: `{ runId, seq, stream, data? }`. -/
structure AgentEventPayload where
  runId : String
  seq : Nat
  stream : String
  data : Option EventData
deriving DecidableEq, Repr

/-- A forwarded agent payload: the event, the attached session key (when
known) and the possibly stripped `data`. -/
structure AgentOut where
  evt : AgentEventPayload
  sessionKey : Option String
  data : Option EventData
deriving DecidableEq, Repr

/-- Value `{ ...evt.data }` with `result`/`partialResult` deleted (`{}` when
`evt.data` is missing). -/
def stripData : Option EventData → EventData
  | some d => { d with result := none, partResult := none }
  | none => { text := none, phase := none, error := none, result := none, partResult := none }

/-- The assistant message carried by a chat payload. -/
structure ChatMessage where
  role : String
  text : String
  timestamp : Nat
deriving DecidableEq, Repr

/-- Outbound chat payload `{ runId, sessionKey, seq, state, message?, errorMessage? }`. -/
structure ChatPayload where
  runId : String
  sessionKey : String
  seq : Nat
  state : String
  message : Option ChatMessage
  errorMessage : Option String
deriving DecidableEq, Repr

/-- One observable side effect of the agent-event handler. -/
inductive Output where
  | broadcastAgent (p : AgentOut)
  | broadcastSeqGap (runId : String) (sessionKey : Option String) (ts expected received : Nat)
  | broadcastChat (p : ChatPayload) (dropIfSlow : Bool)
  | broadcastToolToConns (p : AgentOut) (conns : List String)
  | sendToSessionAgent (sessionKey : String) (p : AgentOut)
  | sendToSessionChat (sessionKey : String) (p : ChatPayload)
  | clearRunContext (runId : String)
deriving DecidableEq, Repr

/-! ### AgentEventHandler (source: `createAgentEventHandler`) -/

/-- External collaborators of the handler, modelled as pure functions:
heartbeat suppression (config lookup), the session-key fallback resolver
and tool-verbosity resolution (run context / session store lookup). -/
structure HandlerEnv where
  suppressHeartbeat : String → Bool
  resolveSessionKeyForRun : String → Option String
  resolveToolVerbose : String → Option String → String

/-- The mutable state closed over by the handler: the run-sequence map, the
`ChatRunState` maps and the tool-recipient registry. -/
structure HandlerState where
  agentRunSeq : SMap Nat
  registry : ChatRunReg
  buffers : SMap String
  deltaSentAt : SMap Nat
  abortedRuns : SMap Nat
  toolRecipients : SMap ToolRecipientEntry

/-- Source `chatRunState.registry.peek(evt.runId)`. -/
def chatLinkOf (st : HandlerState) (evt : AgentEventPayload) : Option ChatRunEntry :=
  regPeek st.registry evt.runId

/-- Source `chatLink?.sessionKey ?? resolveSessionKeyForRun(evt.runId)`. -/
def sessionKeyOf (env : HandlerEnv) (st : HandlerState) (evt : AgentEventPayload) :
    Option String :=
  match chatLinkOf st evt with
  | some l => some l.sessionKey
  | none => env.resolveSessionKeyForRun evt.runId

/-- Source `chatLink?.clientRunId ?? evt.runId`. -/
def clientRunIdOf (st : HandlerState) (evt : AgentEventPayload) : String :=
  match chatLinkOf st evt with
  | some l => l.clientRunId
  | none => evt.runId

/-- Source `abortedRuns.has(clientRunId) || abortedRuns.has(evt.runId)`. -/
def isAbortedOf (st : HandlerState) (evt : AgentEventPayload) : Bool :=
  mapHas st.abortedRuns (clientRunIdOf st evt) || mapHas st.abortedRuns evt.runId

/-- Source `agentRunSeq.get(evt.runId) ?? 0`. -/
def lastSeqOf (st : HandlerState) (evt : AgentEventPayload) : Nat :=
  (mapGet st.agentRunSeq evt.runId).getD 0

/-- Source `sessionKey ? { ...evt, sessionKey } : evt`. -/
def agentPayloadOf (env : HandlerEnv) (st : HandlerState) (evt : AgentEventPayload) : AgentOut :=
  { evt := evt, sessionKey := sessionKeyOf env st evt, data := evt.data }

/-- Source `evt.stream === "lifecycle" && typeof evt.data?.phase === "string" ? evt.data.phase : null`. -/
def lifecyclePhaseOf (evt : AgentEventPayload) : Option String :=
  if evt.stream = "lifecycle" then evt.data.bind EventData.phase else none

/-- Source `lifecyclePhase === "end" || lifecyclePhase === "error"`. -/
def isEndPhase (evt : AgentEventPayload) : Bool :=
  lifecyclePhaseOf evt == some "end" || lifecyclePhaseOf evt == some "error"

/-- The `"delta"` chat payload assembled by `emitChatDelta`. -/
def deltaPayload (sessionKey clientRunId : String) (seq now : Nat) (text : String) :
    ChatPayload :=
  { runId := clientRunId, sessionKey := sessionKey, seq := seq, state := "delta",
    message := some { role := "assistant", text := text, timestamp := now },
    errorMessage := none }

/-- Source `emitChatDelta`: always store the text in the buffer; broadcast (unless
heartbeat-suppressed) and unicast the delta payload, updating the throttle
timestamp, only when at least 150 ms passed since the last delta broadcast. -/
def emitChatDelta (env : HandlerEnv) (now : Nat) (buffers : SMap String)
    (deltaSentAt : SMap Nat) (sessionKey clientRunId : String) (seq : Nat) (text : String) :
    SMap String × SMap Nat × List Output :=
  let buffers' := mapSet buffers clientRunId text
  let last := (mapGet deltaSentAt clientRunId).getD 0
  if now - last < 150 then (buffers', deltaSentAt, [])
  else
    let payload := deltaPayload sessionKey clientRunId seq now text
    (buffers', mapSet deltaSentAt clientRunId now,
      (if env.suppressHeartbeat clientRunId then [] else [Output.broadcastChat payload true])
        ++ [Output.sendToSessionChat sessionKey payload])

/-- Source `message: text ? {...} : undefined` of the `"final"` payload. -/
def finalMessage (text : String) (now : Nat) : Option ChatMessage :=
  if text = "" then none else some { role := "assistant", text := text, timestamp := now }

/-- Source `error ? formatForLog(error) : undefined` with `formatForLog` modelled as
the identity on strings (the empty string is falsy). -/
def errMsgOf : Option String → Option String
  | some s => if s = "" then none else some s
  | none => none

/-- The finalization chat payload assembled by `emitChatFinal`. -/
def finalPayload (sessionKey clientRunId : String) (seq now : Nat) (jobDone : Bool)
    (bufText : Option String) (error : Option String) : ChatPayload :=
  if jobDone then
    { runId := clientRunId, sessionKey := sessionKey, seq := seq, state := "final",
      message := finalMessage ((bufText.map String.trim).getD "") now, errorMessage := none }
  else
    { runId := clientRunId, sessionKey := sessionKey, seq := seq, state := "error",
      message := none, errorMessage := errMsgOf error }

/-- Source `emitChatFinal`: read and clear the buffered text and throttle timestamp,
then broadcast (the `"done"` payload unless heartbeat-suppressed, the
`"error"` payload unconditionally) and unicast the finalization payload. -/
def emitChatFinal (env : HandlerEnv) (now : Nat) (buffers : SMap String)
    (deltaSentAt : SMap Nat) (sessionKey clientRunId : String) (seq : Nat)
    (jobDone : Bool) (error : Option String) :
    SMap String × SMap Nat × List Output :=
  let payload := finalPayload sessionKey clientRunId seq now jobDone
    (mapGet buffers clientRunId) error
  let buffers' := mapDelete buffers clientRunId
  let deltaSentAt' := mapDelete deltaSentAt clientRunId
  if jobDone then
    (buffers', deltaSentAt',
      (if env.suppressHeartbeat clientRunId then [] else [Output.broadcastChat payload false])
        ++ [Output.sendToSessionChat sessionKey payload])
  else
    (buffers', deltaSentAt',
      [Output.broadcastChat payload false, Output.sendToSessionChat sessionKey payload])

/-- The `if (sessionKey) { ... }` block of the handler: session unicast of
the agent payload, then delta buffering, finalization, or aborted-run
purge.  The returned `Bool` is `true` exactly on the early `return` taken
when `shift` finds no entry despite a correlation having been peeked. -/
def sessionPhase (env : HandlerEnv) (now : Nat) (st : HandlerState)
    (evt : AgentEventPayload) (sessionKey : Option String) (clientRunId : String)
    (isAborted : Bool) (chatLink : Option ChatRunEntry) (isToolEvent : Bool)
    (toolPayload agentPayload : AgentOut) : HandlerState × List Output × Bool :=
  match sessionKey with
  | none => (st, [], false)
  | some sk =>
    let sessOut := Output.sendToSessionAgent sk (if isToolEvent then toolPayload else agentPayload)
    if isAborted = false ∧ evt.stream = "assistant" ∧ (evt.data.bind EventData.text).isSome then
      let text := (evt.data.bind EventData.text).getD ""
      let r := emitChatDelta env now st.buffers st.deltaSentAt sk clientRunId evt.seq text
      ({ st with buffers := r.1, deltaSentAt := r.2.1 }, sessOut :: r.2.2, false)
    else if isAborted = false ∧ isEndPhase evt then
      match chatLink with
      | some _ =>
        let s := regShift st.registry evt.runId
        match s.1 with
        | none =>
            ({ st with registry := s.2 }, [sessOut, Output.clearRunContext evt.runId], true)
        | some finished =>
            let r := emitChatFinal env now st.buffers st.deltaSentAt finished.sessionKey
              finished.clientRunId evt.seq (lifecyclePhaseOf evt ≠ some "error")
              (evt.data.bind EventData.error)
            ({ st with registry := s.2, buffers := r.1, deltaSentAt := r.2.1 },
              sessOut :: r.2.2, false)
      | none =>
        let r := emitChatFinal env now st.buffers st.deltaSentAt sk evt.runId evt.seq
          (lifecyclePhaseOf evt ≠ some "error") (evt.data.bind EventData.error)
        ({ st with buffers := r.1, deltaSentAt := r.2.1 }, sessOut :: r.2.2, false)
    else if isAborted = true ∧ isEndPhase evt then
      ({ st with
          abortedRuns := mapDelete (mapDelete st.abortedRuns clientRunId) evt.runId,
          buffers := mapDelete st.buffers clientRunId,
          deltaSentAt := mapDelete st.deltaSentAt clientRunId,
          registry :=
            match chatLink with
            | some _ => (regRemove st.registry evt.runId clientRunId (some sk)).2
            | none => st.registry },
        [sessOut], false)
    else (st, [sessOut], false)

/-- The trailing lifecycle cleanup: `markFinal` on the tool-recipient
registry and the external `clearAgentRunContext(runId)` call. -/
def lifecycleTail (now : Nat) (st : HandlerState) (evt : AgentEventPayload) :
    HandlerState × List Output :=
  if isEndPhase evt then
    ({ st with toolRecipients := toolMarkFinal now st.toolRecipients evt.runId },
      [Output.clearRunContext evt.runId])
  else (st, [])

/-- The verbosity consulted for tool-stream events (`"off"` otherwise). -/
def toolVerboseOf (env : HandlerEnv) (st : HandlerState) (evt : AgentEventPayload) : String :=
  if evt.stream = "tool" then env.resolveToolVerbose evt.runId (sessionKeyOf env st evt)
  else "off"

/-- The tool payload: `result`/`partialResult` stripped unless verbosity is
`"full"`. -/
def toolPayloadOf (env : HandlerEnv) (st : HandlerState) (evt : AgentEventPayload) : AgentOut :=
  if evt.stream = "tool" ∧ toolVerboseOf env st evt ≠ "full" then
    { evt := evt, sessionKey := sessionKeyOf env st evt, data := some (stripData evt.data) }
  else agentPayloadOf env st evt

/-- The seq-gap broadcast emitted before processing, when there is a gap. -/
def gapOutsOf (env : HandlerEnv) (now : Nat) (st : HandlerState)
    (evt : AgentEventPayload) : List Output :=
  if evt.seq = lastSeqOf st evt + 1 then []
  else [Output.broadcastSeqGap evt.runId (sessionKeyOf env st evt) now
    (lastSeqOf st evt + 1) evt.seq]

/-- `agentRunSeq.set(evt.runId, evt.seq)` applied to the state. -/
def seqSetState (st : HandlerState) (evt : AgentEventPayload) : HandlerState :=
  { st with agentRunSeq := mapSet st.agentRunSeq evt.runId evt.seq }

/-- The fan-out step: tool events go only to their registered recipients
(through the stateful `toolEventRecipients.get`), other events to the
general broadcast. -/
def fanOf (env : HandlerEnv) (now : Nat) (st : HandlerState) (evt : AgentEventPayload) :
    List Output × SMap ToolRecipientEntry :=
  if evt.stream = "tool" then
    let g := toolGet now (seqSetState st evt).toolRecipients evt.runId
    ((match g.1 with
      | some conns =>
          if conns = [] then []
          else [Output.broadcastToolToConns (toolPayloadOf env st evt) conns]
      | none => []), g.2)
  else ([Output.broadcastAgent (agentPayloadOf env st evt)], (seqSetState st evt).toolRecipients)

/-- The state after sequence bookkeeping and the fan-out's registry access. -/
def midState (env : HandlerEnv) (now : Nat) (st : HandlerState)
    (evt : AgentEventPayload) : HandlerState :=
  { seqSetState st evt with toolRecipients := (fanOf env now st evt).2 }

/-- The handler body past the tool-verbosity `"off"` early return: seq-gap
detection, fan-out, session-scoped delivery / chat assembly, lifecycle tail. -/
def processEvent (env : HandlerEnv) (now : Nat) (st : HandlerState)
    (evt : AgentEventPayload) : HandlerState × List Output :=
  let st2 := midState env now st evt
  let sp := sessionPhase env now st2 evt (sessionKeyOf env st evt) (clientRunIdOf st evt)
    (isAbortedOf st evt) (chatLinkOf st evt) (decide (evt.stream = "tool"))
    (toolPayloadOf env st evt) (agentPayloadOf env st evt)
  if sp.2.2 then (sp.1, gapOutsOf env now st evt ++ ((fanOf env now st evt).1 ++ sp.2.1))
  else
    let tl := lifecycleTail now sp.1 evt
    (tl.1, gapOutsOf env now st evt ++ ((fanOf env now st evt).1 ++ (sp.2.1 ++ tl.2)))

/-- Source `createAgentEventHandler(...)`'s returned handler, as a pure transition
on `HandlerState` producing the list of emitted effects in order. -/
def handleAgentEvent (env : HandlerEnv) (now : Nat) (st : HandlerState)
    (evt : AgentEventPayload) : HandlerState × List Output :=
  if evt.stream = "tool" ∧
      env.resolveToolVerbose evt.runId (sessionKeyOf env st evt) = "off" then
    ({ st with agentRunSeq := mapSet st.agentRunSeq evt.runId evt.seq }, [])
  else processEvent env now st evt

/-- Chat payloads that were broadcast on the general channel, in order. -/
def chatBroadcasts (outs : List Output) : List ChatPayload :=
  outs.filterMap (fun o => match o with | Output.broadcastChat p _ => some p | _ => none)

/-- Chat payloads that were unicast to a session, in order. -/
def chatUnicasts (outs : List Output) : List ChatPayload :=
  outs.filterMap (fun o => match o with | Output.sendToSessionChat _ p => some p | _ => none)

/-- Seq-gap broadcasts, in order. -/
def gapBroadcasts (outs : List Output) : List Output :=
  outs.filter (fun o => match o with | Output.broadcastSeqGap _ _ _ _ _ => true | _ => false)

/-! ### ChannelMessageHandler (source: `createChannelMessageHandler`) -/

/-- The session-store entry fields the handler creates or mutates. -/
structure SessionEntry where
  sessionId : String
  updatedAt : Nat
  systemSent : Bool
  abortedLastRun : Bool
  inputTokens : Nat
  outputTokens : Nat
  totalTokens : Nat
  label : String
  origin : String
  lastChannel : String
  lastTo : String
  sendPolicy : String
  contextTokens : Option Nat
  model : Option String
  modelProvider : Option String
  sessionFile : Option String
deriving DecidableEq, Repr

/-- Source `getSessionDefaults(cfg)` as consumed by the handler. -/
structure SessionDefaults where
  model : Option String
  modelProvider : Option String
  contextTokens : Option Nat

/-- A normalized inbound channel message `{ id?, from, text }`. -/
structure InboundMessage where
  id : Option String
  fromAddr : String
  text : String
deriving DecidableEq, Repr

/-- One payload handed to the reply dispatcher's `deliver` callback. -/
structure Delivery where
  kind : String
  text : Option String
deriving DecidableEq, Repr

/-- External collaborators of the channel handler, modelled as data: the
store-key candidates for a session key, config defaults, the generated
session id, the clock, the session-key resolver, the payloads the dispatch
pipeline delivers (in order), whether the dispatch promise resolved without
throwing, and whether an `onReply` callback was supplied. -/
structure ChannelEnv where
  storeKeys : String → List String
  defaults : SessionDefaults
  freshSessionId : String
  now : Nat
  resolveSessionKey : String → String → String
  deliveries : List Delivery
  dispatchOk : Bool
  hasOnReply : Bool

/-- Observable side effects of the channel handler. -/
inductive ChannelOutput where
  | transcriptAppend (sessionId role text : String)
  | onReply (channelId accountId toAddr text : String)
deriving DecidableEq, Repr

/-- The fresh session entry the store callback synthesizes when no entry
exists under any candidate key: fresh id, zeroed counters, forced
`sendPolicy:"allow"`, defaults pulled from config. -/
def freshSessionEntry (env : ChannelEnv) (channelId : String) (msg : InboundMessage) :
    SessionEntry :=
  { sessionId := env.freshSessionId
    updatedAt := env.now
    systemSent := false
    abortedLastRun := false
    inputTokens := 0
    outputTokens := 0
    totalTokens := 0
    label := "Channel " ++ msg.fromAddr
    origin := "user"
    lastChannel := channelId
    lastTo := msg.fromAddr
    sendPolicy := "allow"
    contextTokens := env.defaults.contextTokens
    model := env.defaults.model
    modelProvider := env.defaults.modelProvider
    sessionFile := none }

/-- The `updateSessionStore` callback: find an existing entry under any
candidate key; create a fresh entry (zeroed counters, `sendPolicy:"allow"`)
when none exists, else refresh it in place, forcing `sendPolicy` to
`"allow"` when it was falsy or `"auto"`.  Returns the updated store and the
resolved `sessionId`/`sessionFile`. -/
def channelUpdateStore (env : ChannelEnv) (channelId : String) (msg : InboundMessage)
    (sessionKey : String) (store : SMap SessionEntry) :
    SMap SessionEntry × Option String × Option String :=
  let keys := env.storeKeys sessionKey
  let primaryKey := keys.head?.getD sessionKey
  let existingKey := keys.find? (fun k => (mapGet store k).isSome)
  match existingKey with
  | none =>
      let entry : SessionEntry := freshSessionEntry env channelId msg
      (mapSet store primaryKey entry, some entry.sessionId, entry.sessionFile)
  | some key =>
      match mapGet store key with
      | none => (store, none, none)
      | some e =>
          let policy := if e.sendPolicy = "" ∨ e.sendPolicy = "auto" then "allow" else e.sendPolicy
          let e' := { e with
            updatedAt := env.now
            lastChannel := channelId
            lastTo := msg.fromAddr
            sendPolicy := policy }
          (mapSet store key e', some e'.sessionId, e'.sessionFile)

/-- The dispatcher `deliver` callback accumulated over the run: keep the
trimmed text of `"final"` payloads when non-empty, in delivery order. -/
def finalReplyParts (deliveries : List Delivery) : List String :=
  deliveries.filterMap (fun d =>
    if d.kind = "final" then
      let t := ((d.text.getD "").trim)
      if t = "" then none else some t
    else none)

/-- The handler returned by `createChannelMessageHandler`: resolve the
session key, ensure the session-store entry, append the user turn to the
transcript, run dispatch, and forward the joined final reply through
`onReply` when any non-empty final text accumulated and dispatch did not
throw. -/
def handleChannelMessage (env : ChannelEnv) (channelId accountId : String)
    (msg : InboundMessage) (store : SMap SessionEntry) :
    SMap SessionEntry × List ChannelOutput :=
  let sessionKey := env.resolveSessionKey channelId msg.fromAddr
  let u := channelUpdateStore env channelId msg sessionKey store
  match u.2.1 with
  | none => (u.1, [])
  | some sessionId =>
      let userAppend := ChannelOutput.transcriptAppend sessionId "user" msg.text
      let parts := finalReplyParts env.deliveries
      let replyOuts :=
        if env.dispatchOk then
          if parts ≠ [] ∧ env.hasOnReply then
            [ChannelOutput.onReply channelId accountId msg.fromAddr
              (String.intercalate "\n\n" parts)]
          else []
        else []
      (u.1, userAppend :: replyOuts)

/-- The `onReply` invocations among the handler's outputs. -/
def onReplyCalls (outs : List ChannelOutput) : List ChannelOutput :=
  outs.filter (fun o => match o with | ChannelOutput.onReply _ _ _ _ => true | _ => false)

/-- The transcript appends among the handler's outputs. -/
def transcriptAppends (outs : List ChannelOutput) : List ChannelOutput :=
  outs.filter (fun o => match o with | ChannelOutput.transcriptAppend _ _ _ => true | _ => false)

/-! ### Auxiliary predicates and concrete fixtures -/

/-- The keys of a map, in binding order. -/
def mapKeys {α : Type} : SMap α → List String
  | [] => []
  | (k, _) :: rest => k :: mapKeys rest

/-- A JS `Map` never holds two bindings for one key; states reachable through
the registry API satisfy this. -/
def keysNodup {α : Type} (m : SMap α) : Prop := (mapKeys m).Nodup

/-- Helper to build an `EventData` with only the handler-relevant fields. -/
def mkData (text phase error : Option String) : EventData :=
  { text := text, phase := phase, error := error, result := none, partResult := none }

/-- Fixture entries for the chat-run registry. -/
def entA : ChatRunEntry := { sessionKey := "sess", clientRunId := "cr-a" }

def entB : ChatRunEntry := { sessionKey := "sess", clientRunId := "cr-b" }

def entC : ChatRunEntry := { sessionKey := "sess", clientRunId := "cr-c" }

/-- Fixture registry: one session with three pending runs. -/
def regFix : ChatRunReg := [("s1", [entA, entB, entC])]

/-- Fixture handler environment: no heartbeat suppression, a fixed fallback
session key, tool verbosity resolved to `"off"`. -/
def envFix : HandlerEnv :=
  { suppressHeartbeat := fun _ => false
    resolveSessionKeyForRun := fun _ => some "sess"
    resolveToolVerbose := fun _ _ => "off" }

/-- Fixture handler state: everything empty. -/
def stEmpty : HandlerState :=
  { agentRunSeq := [], registry := [], buffers := [], deltaSentAt := [],
    abortedRuns := [], toolRecipients := [] }

/-- Fixture assistant-stream event carrying the text `"Hello"`. -/
def evtHello : AgentEventPayload :=
  { runId := "run-1", seq := 1, stream := "assistant",
    data := some (mkData (some "Hello") none none) }

/-- Fixture tool-stream event with sequence 5. -/
def evtTool : AgentEventPayload :=
  { runId := "run-2", seq := 5, stream := "tool", data := none }

/-- Fixture state recording last-seen sequence 3 for `run-2`. -/
def stSeq : HandlerState := { stEmpty with agentRunSeq := [("run-2", 3)] }

/-- Fixture lifecycle `"end"` event for `run-3`. -/
def evtEnd : AgentEventPayload :=
  { runId := "run-3", seq := 2, stream := "lifecycle",
    data := some (mkData none (some "end") none) }

/-- Fixture state with buffered (untrimmed) text for `run-3`. -/
def stBuf : HandlerState := { stEmpty with buffers := [("run-3", " Hi there ")] }

/-- Fixture state for an aborted correlated run `run-4`. -/
def stAborted : HandlerState :=
  { stEmpty with
    abortedRuns := [("run-4", 1)]
    buffers := [("run-4", "partial text")]
    deltaSentAt := [("run-4", 10)]
    registry := [("run-4", [{ sessionKey := "sess", clientRunId := "run-4" }])] }

/-- Fixture lifecycle `"end"` event for the aborted run `run-4`. -/
def evtEnd4 : AgentEventPayload :=
  { runId := "run-4", seq := 3, stream := "lifecycle",
    data := some (mkData none (some "end") none) }

/-- Fixture channel environment: identity-ish store keys, one final reply. -/
def envCh : ChannelEnv :=
  { storeKeys := fun k => [k]
    defaults := { model := some "m", modelProvider := some "p", contextTokens := none }
    freshSessionId := "sid-1"
    now := 42
    resolveSessionKey := fun c f => c ++ ":" ++ f
    deliveries := [{ kind := "partial", text := some "ignored" },
                   { kind := "final", text := some " hello! " }]
    dispatchOk := true
    hasOnReply := true }

/-- Fixture inbound message. -/
def msgHi : InboundMessage := { id := none, fromAddr := "wallet-abc", text := "hi" }

/-- Fixture state recording last-seen sequence 3 for `run-1`. -/
def stSeqA : HandlerState := { stEmpty with agentRunSeq := [("run-1", 3)] }

/-- Fixture: a never-finalized recipient entry last updated at time 0. -/
def toolFixN : SMap ToolRecipientEntry :=
  [("r", { connIds := ["c"], updatedAt := 0, finalizedAt := none })]

/-- Fixture: a recipient entry finalized at time 100. -/
def toolFixF : SMap ToolRecipientEntry :=
  [("r", { connIds := ["c"], updatedAt := 100, finalizedAt := some 100 })]


/-! ### Lemmas about the map model -/

theorem mapGet_set {α : Type} (m : SMap α) (k j : String) (v : α) :
    mapGet (mapSet m k v) j = if k = j then some v else mapGet m j := by
  induction m with
  | nil =>
    by_cases h : k = j <;> simp [mapSet, mapGet, h]
  | cons head rest ih =>
    obtain ⟨k', v'⟩ := head
    by_cases h1 : k' = k
    · subst h1
      by_cases h2 : k' = j <;> simp [mapSet, mapGet, h2]
    · by_cases h2 : k' = j
      · subst h2
        have : ¬k = k' := fun h => h1 h.symm
        simp [mapSet, mapGet, h1, this]
      · simp [mapSet, mapGet, h1, h2, ih]

theorem mapGet_delete {α : Type} (m : SMap α) (k j : String) :
    mapGet (mapDelete m k) j = if k = j then none else mapGet m j := by
  induction m with
  | nil => by_cases h : k = j <;> simp [mapDelete, mapGet, h]
  | cons head rest ih =>
    obtain ⟨k', v'⟩ := head
    by_cases h1 : k' = k
    · subst h1
      by_cases h2 : k' = j
      · simpa [mapDelete, h2] using ih
      · simp [mapDelete, mapGet, h2, ih]
    · by_cases h2 : k' = j
      · subst h2
        have : ¬k = k' := fun h => h1 h.symm
        simp [mapDelete, mapGet, h1, this]
      · simp [mapDelete, mapGet, h1, h2, ih]

theorem mapGet_eq_none_iff {α : Type} (m : SMap α) (k : String) :
    mapGet m k = none ↔ k ∉ mapKeys m := by
  induction m with
  | nil => simp [mapGet, mapKeys]
  | cons head rest ih =>
    obtain ⟨k', v'⟩ := head
    by_cases h : k' = k
    · subst h
      simp [mapGet, mapKeys]
    · have h' : k ≠ k' := fun hh => h hh.symm
      simp [mapGet, mapKeys, h, h', ih]

theorem mapGet_filter_pos {α : Type} (p : String × α → Bool) (m : SMap α) (k : String)
    (v : α) (h : mapGet m k = some v) (hp : p (k, v) = true) :
    mapGet (m.filter p) k = some v := by
  induction m with
  | nil => simp [mapGet] at h
  | cons head rest ih =>
    obtain ⟨k', v'⟩ := head
    by_cases h1 : k' = k
    · subst h1
      simp [mapGet] at h
      subst h
      simp [List.filter_cons, hp, mapGet]
    · simp [mapGet, h1] at h
      rcases hf : p (k', v') with _ | _ <;>
        simp [List.filter_cons, hf, mapGet, h1, ih h]

theorem mapGet_filter_none {α : Type} (p : String × α → Bool) (m : SMap α) (k : String)
    (h : mapGet m k = none) : mapGet (m.filter p) k = none := by
  induction m with
  | nil => simp [mapGet]
  | cons head rest ih =>
    obtain ⟨k', v'⟩ := head
    by_cases h1 : k' = k
    · subst h1
      simp [mapGet] at h
    · simp [mapGet, h1] at h
      rcases hf : p (k', v') with _ | _ <;>
        simp [List.filter_cons, hf, mapGet, h1, ih h]

theorem mapGet_filter_neg {α : Type} (p : String × α → Bool) (m : SMap α) (k : String)
    (v : α) (hnd : keysNodup m) (h : mapGet m k = some v) (hp : p (k, v) = false) :
    mapGet (m.filter p) k = none := by
  induction m with
  | nil => simp [mapGet] at h
  | cons head rest ih =>
    obtain ⟨k', v'⟩ := head
    rw [keysNodup] at hnd
    simp only [mapKeys] at hnd
    rw [List.nodup_cons] at hnd
    by_cases h1 : k' = k
    · subst h1
      simp [mapGet] at h
      subst h
      have hrest : mapGet rest k' = none := (mapGet_eq_none_iff rest k').mpr hnd.1
      simp [List.filter_cons, hp, mapGet_filter_none p rest k' hrest]
    · simp [mapGet, h1] at h
      rcases hf : p (k', v') with _ | _ <;>
        simp [List.filter_cons, hf, mapGet, h1, ih hnd.2 h]

theorem mem_keys_mapSet {α : Type} (m : SMap α) (k j : String) (v : α)
    (h : j ∈ mapKeys (mapSet m k v)) : j ∈ mapKeys m ∨ j = k := by
  induction m with
  | nil =>
    simp [mapSet, mapKeys] at h
    exact Or.inr h
  | cons head rest ih =>
    obtain ⟨k', v'⟩ := head
    by_cases h1 : k' = k
    · subst h1
      simp only [mapSet, if_pos rfl, mapKeys, List.mem_cons] at h ⊢
      rcases h with h | h
      · exact Or.inr h
      · exact Or.inl (Or.inr h)
    · simp only [mapSet, if_neg h1, mapKeys, List.mem_cons] at h ⊢
      rcases h with h | h
      · exact Or.inl (Or.inl h)
      · rcases ih h with h' | h'
        · exact Or.inl (Or.inr h')
        · exact Or.inr h'

theorem keysNodup_mapSet {α : Type} (m : SMap α) (k : String) (v : α)
    (h : keysNodup m) : keysNodup (mapSet m k v) := by
  induction m with
  | nil => simp [mapSet, keysNodup, mapKeys]
  | cons head rest ih =>
    obtain ⟨k', v'⟩ := head
    rw [keysNodup] at h
    simp only [mapKeys] at h
    rw [List.nodup_cons] at h
    by_cases h1 : k' = k
    · subst h1
      rw [keysNodup]
      simp only [mapSet, if_pos rfl, mapKeys]
      rw [List.nodup_cons]
      exact h
    · rw [keysNodup]
      simp only [mapSet, if_neg h1, mapKeys]
      rw [List.nodup_cons]
      refine ⟨fun hmem => ?_, ih h.2⟩
      rcases mem_keys_mapSet rest k k' v hmem with h' | h'
      · exact h.1 h'
      · exact h1 h'

/-! ### ChatRunRegistry lemmas and claims C8, C9 -/

theorem regShiftN_drain (sid : String) :
    ∀ (es : List ChatRunEntry) (reg : ChatRunReg), mapGet reg sid = some es →
      (regShiftN reg sid es.length).1 = es ∧
      regPeek (regShiftN reg sid es.length).2 sid = none ∧
      (es ≠ [] → mapGet (regShiftN reg sid es.length).2 sid = none) := by
  intro es
  induction es with
  | nil =>
    intro reg h
    refine ⟨rfl, ?_, fun hne => absurd rfl hne⟩
    simp [regShiftN, regPeek, h]
  | cons a rest ih =>
    intro reg h
    by_cases hr : rest = []
    · subst hr
      have hshift : regShift reg sid = (some a, mapDelete reg sid) := by
        simp [regShift, h]
      have hdel : mapGet (mapDelete reg sid) sid = none := by
        simp [mapGet_delete]
      refine ⟨?_, ?_, fun _ => ?_⟩
      · simp [regShiftN, hshift]
      · simp [regShiftN, hshift, regPeek, hdel]
      · simp [regShiftN, hshift, hdel]
    · have hshift : regShift reg sid = (some a, mapSet reg sid rest) := by
        simp [regShift, h, hr]
      have hrest : mapGet (mapSet reg sid rest) sid = some rest := by
        simp [mapGet_set]
      obtain ⟨ih1, ih2, ih3⟩ := ih (mapSet reg sid rest) hrest
      refine ⟨?_, ?_, fun _ => ?_⟩
      · simp [regShiftN, hshift, ih1]
      · simpa [regShiftN, hshift] using ih2
      · simpa [regShiftN, hshift] using ih3 hr

/-- C8: the ChatRunRegistry is FIFO per session: `add` appends at the tail of
the session queue (creating it when absent), `shift` on a session with no
pending entries returns nothing and changes nothing, and draining a queue by
iterated `shift` returns the entries in exactly insertion order, deleting the
session's queue once the last entry is shifted so a subsequent `peek` on that
session returns nothing. -/
theorem chatRunRegistry_fifo (reg : ChatRunReg) (sid : String) (e : ChatRunEntry) :
    mapGet (regAdd reg sid e) sid = some (((mapGet reg sid).getD []) ++ [e]) ∧
    ((mapGet reg sid).getD [] = [] → regShift reg sid = (none, reg)) ∧
    (∀ es, mapGet reg sid = some es →
      (regShiftN reg sid es.length).1 = es ∧
      regPeek (regShiftN reg sid es.length).2 sid = none ∧
      (es ≠ [] → mapGet (regShiftN reg sid es.length).2 sid = none)) := by
  refine ⟨?_, ?_, fun es h => regShiftN_drain sid es reg h⟩
  · cases hq : mapGet reg sid with
    | none => simp [regAdd, hq, mapGet_set]
    | some q => simp [regAdd, hq, mapGet_set]
  · intro h
    cases hq : mapGet reg sid with
    | none => simp [regShift, hq]
    | some q =>
      rw [hq] at h
      simp only [Option.getD_some] at h
      subst h
      simp [regShift, hq]

theorem chatRunRegistry_fifo_witness :
    (regShiftN regFix "s1" 3).1 = [entA, entB, entC] ∧
    regPeek (regShiftN regFix "s1" 3).2 "s1" = none := by
  have h := (chatRunRegistry_fifo regFix "s1" entA).2.2 [entA, entB, entC] rfl
  exact ⟨h.1, h.2.1⟩

theorem removeFromQueue_found (clientRunId : String) (sessionKey : Option String) :
    ∀ (pre : List ChatRunEntry) (e : ChatRunEntry) (post : List ChatRunEntry),
      (∀ x ∈ pre, entryMatches clientRunId sessionKey x = false) →
      entryMatches clientRunId sessionKey e = true →
      removeFromQueue clientRunId sessionKey (pre ++ e :: post) = some (e, pre ++ post) := by
  intro pre
  induction pre with
  | nil =>
    intro e post _ he
    simp [removeFromQueue, he]
  | cons a rest ih =>
    intro e post hpre he
    have ha : entryMatches clientRunId sessionKey a = false := hpre a (by simp)
    have hrest : ∀ x ∈ rest, entryMatches clientRunId sessionKey x = false :=
      fun x hx => hpre x (by simp [hx])
    simp [removeFromQueue, ha, ih e post hrest he]

theorem removeFromQueue_none_of (clientRunId : String) (sessionKey : Option String) :
    ∀ q : List ChatRunEntry,
      (∀ x ∈ q, entryMatches clientRunId sessionKey x = false) →
      removeFromQueue clientRunId sessionKey q = none := by
  intro q
  induction q with
  | nil => intro _; rfl
  | cons a rest ih =>
    intro h
    have ha : entryMatches clientRunId sessionKey a = false := h a (by simp)
    have hrest := ih (fun x hx => h x (by simp [hx]))
    simp [removeFromQueue, ha, hrest]

/-- C9: `remove(sessionId, clientRunId, sessionKey?)` removes exactly the
first entry whose `clientRunId` (and, when given, `sessionKey`) matches,
wherever it sits in the queue, returns it, leaves the relative order of the
remaining entries unchanged, deletes the queue when it becomes empty, and
returns nothing when no entry matches or the queue is absent. -/
theorem chatRunRegistry_remove (reg : ChatRunReg) (sid clientRunId : String)
    (sessionKey : Option String) :
    (∀ pre e post, mapGet reg sid = some (pre ++ e :: post) →
      (∀ x ∈ pre, entryMatches clientRunId sessionKey x = false) →
      entryMatches clientRunId sessionKey e = true →
      regRemove reg sid clientRunId sessionKey =
        (some e, if pre ++ post = [] then mapDelete reg sid
                 else mapSet reg sid (pre ++ post))) ∧
    (∀ q, mapGet reg sid = some q →
      (∀ x ∈ q, entryMatches clientRunId sessionKey x = false) →
      regRemove reg sid clientRunId sessionKey = (none, reg)) ∧
    (mapGet reg sid = none → regRemove reg sid clientRunId sessionKey = (none, reg)) := by
  refine ⟨?_, ?_, ?_⟩
  · intro pre e post hq hpre he
    have hne : pre ++ e :: post ≠ [] := by simp
    simp [regRemove, hq, hne, removeFromQueue_found clientRunId sessionKey pre e post hpre he]
  · intro q hq hall
    rcases hq' : q with _ | ⟨a, rest⟩
    · subst hq'
      simp [regRemove, hq]
    · subst hq'
      simp [regRemove, hq, removeFromQueue_none_of clientRunId sessionKey _ hall]
  · intro hq
    simp [regRemove, hq]

theorem chatRunRegistry_remove_witness :
    regRemove regFix "s1" "cr-b" (some "sess") =
      (some entB, mapSet regFix "s1" [entA, entC]) := by
  have h := (chatRunRegistry_remove regFix "s1" "cr-b" (some "sess")).1
    [entA] entB [entC] rfl (by decide) (by decide)
  simpa using h

/-! ### ToolEventRecipientRegistry lemmas and claims C6, C10 -/

theorem toolGet_of_none (s : SMap ToolRecipientEntry) (r : String) (now : Nat)
    (h : mapGet s r = none) : toolGet now s r = (none, s) := by
  simp [toolGet, h]

theorem toolGet_of_mem (s : SMap ToolRecipientEntry) (r : String)
    (e : ToolRecipientEntry) (now : Nat) (h : mapGet s r = some e) :
    (toolGet now s r).1 = some e.connIds := by
  simp [toolGet, h]

theorem toolGet_keeps_nonfinal (s : SMap ToolRecipientEntry) (r : String)
    (e : ToolRecipientEntry) (now : Nat) (h : mapGet s r = some e)
    (hfin : e.finalizedAt = none) :
    mapGet (toolGet now s r).2 r = some { e with updatedAt := now } := by
  have hset : mapGet (mapSet s r { e with updatedAt := now }) r =
      some { e with updatedAt := now } := by
    simp [mapGet_set]
  have hp : (fun p : String × ToolRecipientEntry => decide (now < entryCutoff p.2))
      (r, { e with updatedAt := now }) = true := by
    simp only [decide_eq_true_eq]
    simp [entryCutoff, hfin, TOOL_EVENT_RECIPIENT_TTL_MS]
  simpa [toolGet, h, toolPrune] using
    mapGet_filter_pos _ (mapSet s r { e with updatedAt := now }) r _ hset hp

/-- C10: when `get(runId)` finds an entry in its map at call time it returns
that entry's connection-id set — even if the entry's eviction cutoff has
already passed, because the set reference is captured before the lazy sweep
runs — and it first refreshes the entry's `updatedAt` to the call time, so a
non-finalized entry is never evicted by a `get` for its own runId and is
kept alive indefinitely by sufficiently frequent reads. -/
theorem toolRegistry_get_keeps_alive (s : SMap ToolRecipientEntry) (r : String)
    (e : ToolRecipientEntry) (now : Nat) (h : mapGet s r = some e) :
    (toolGet now s r).1 = some e.connIds ∧
    (e.finalizedAt = none →
      mapGet (toolGet now s r).2 r = some { e with updatedAt := now }) :=
  ⟨toolGet_of_mem s r e now h, fun hfin => toolGet_keeps_nonfinal s r e now h hfin⟩

theorem toolRegistry_get_keeps_alive_witness :
    (toolGet 700000 toolFixN "r").1 = some ["c"] ∧
    mapGet (toolGet 700000 toolFixN "r").2 "r" =
      some { connIds := ["c"], updatedAt := 700000, finalizedAt := none } := by
  have h := toolRegistry_get_keeps_alive toolFixN "r"
    { connIds := ["c"], updatedAt := 0, finalizedAt := none } 700000 rfl
  exact ⟨h.1, h.2 rfl⟩

/-- C6 counterexample: an entry added at time 0 and never finalized is
queried at time 600000 (exactly the 10-minute TTL after its last update,
so at the claimed eviction cutoff); the claim says `get` then returns
nothing, but the code returns the connection-id set. -/
theorem toolRegistry_ttl_counterexample :
    0 + TOOL_EVENT_RECIPIENT_TTL_MS ≤ 600000 ∧
    (toolGet 600000 (toolAdd 0 [] "r" "c") "r").1 = some ["c"] := by
  constructor
  · decide
  · rfl

/-- C6 (amended): `get(runId)` returns the entry's connection-id set whenever
an entry for runId is present at call time — in particular still at or after
the TTL cutoff, since the set is captured and `updatedAt` refreshed before
the lazy prune.  A never-finalized entry therefore survives its own `get`
and is expired only by the lazy prune of a later registry call that does not
refresh it, such as an `add` for a different run at or after
`updatedAt + TTL`.  Once `markFinal` has stamped `finalizedAt`, a `get` at
or after `finalizedAt + 30s` removes the entry while still returning the
captured set, so any subsequent `get` returns nothing, even if the TTL since
last update has not elapsed. -/
theorem toolRegistry_eviction (s : SMap ToolRecipientEntry) (r : String)
    (e : ToolRecipientEntry) (now : Nat) :
    (mapGet s r = some e → (toolGet now s r).1 = some e.connIds) ∧
    (mapGet s r = some e → e.finalizedAt = none →
      mapGet (toolGet now s r).2 r = some { e with updatedAt := now }) ∧
    (keysNodup s → mapGet s r = some e →
      ∀ f, e.finalizedAt = some f → f ≠ 0 →
      f + TOOL_EVENT_RECIPIENT_FINAL_GRACE_MS ≤ now →
      mapGet (toolGet now s r).2 r = none ∧
      ∀ now2, (toolGet now2 (toolGet now s r).2 r).1 = none) ∧
    (keysNodup s → mapGet s r = some e → e.finalizedAt = none →
      e.updatedAt + TOOL_EVENT_RECIPIENT_TTL_MS ≤ now →
      ∀ r' c', r' ≠ "" → c' ≠ "" → r' ≠ r →
        mapGet (toolAdd now s r' c') r = none) := by
  refine ⟨fun h => toolGet_of_mem s r e now h,
    fun h hfin => toolGet_keeps_nonfinal s r e now h hfin, ?_, ?_⟩
  · intro hnd h f hf hf0 hcut
    have hset : mapGet (mapSet s r { e with updatedAt := now }) r =
        some { e with updatedAt := now } := by
      simp [mapGet_set]
    have hp : (fun p : String × ToolRecipientEntry => decide (now < entryCutoff p.2))
        (r, { e with updatedAt := now }) = false := by
      simp only [decide_eq_false_iff_not, not_lt]
      simp [entryCutoff, hf, hf0, hcut]
    have hnone : mapGet (toolGet now s r).2 r = none := by
      simpa [toolGet, h, toolPrune] using
        mapGet_filter_neg _ (mapSet s r { e with updatedAt := now }) r _
          (keysNodup_mapSet s r _ hnd) hset hp
    exact ⟨hnone, fun now2 => by rw [toolGet_of_none _ _ _ hnone]⟩
  · intro hnd h hfin hcut r' c' hr' hc' hne
    have hcase : ∀ v : ToolRecipientEntry,
        mapGet (toolPrune now (mapSet s r' v)) r = none := by
      intro v
      have hget : mapGet (mapSet s r' v) r = some e := by
        rw [mapGet_set]
        simp [hne, h]
      have hp : (fun p : String × ToolRecipientEntry => decide (now < entryCutoff p.2))
          (r, e) = false := by
        simp only [decide_eq_false_iff_not, not_lt]
        simp [entryCutoff, hfin, hcut]
      exact mapGet_filter_neg _ (mapSet s r' v) r e (keysNodup_mapSet s r' v hnd) hget hp
    cases hg : mapGet s r' with
    | none => simp [toolAdd, hr', hc', hg, hcase]
    | some e2 => simp [toolAdd, hr', hc', hg, hcase]

theorem toolRegistry_eviction_witness :
    mapGet (toolGet 30100 toolFixF "r").2 "r" = none ∧
    (toolGet 99 (toolGet 30100 toolFixF "r").2 "r").1 = none := by
  have h := (toolRegistry_eviction toolFixF "r"
      { connIds := ["c"], updatedAt := 100, finalizedAt := some 100 } 30100).2.2.1
    (by unfold keysNodup; decide) rfl 100 rfl (by decide) (by decide)
  exact ⟨h.1, h.2 99⟩

/-! ### Output-classification simp lemmas -/

@[simp] theorem chatBroadcasts_nil : chatBroadcasts [] = [] := rfl

@[simp] theorem chatBroadcasts_append (a b : List Output) :
    chatBroadcasts (a ++ b) = chatBroadcasts a ++ chatBroadcasts b :=
  List.filterMap_append a b _

@[simp] theorem chatBroadcasts_chat (p : ChatPayload) (dr : Bool) (l : List Output) :
    chatBroadcasts (Output.broadcastChat p dr :: l) = p :: chatBroadcasts l := rfl

@[simp] theorem chatBroadcasts_agent (p : AgentOut) (l : List Output) :
    chatBroadcasts (Output.broadcastAgent p :: l) = chatBroadcasts l := rfl

@[simp] theorem chatBroadcasts_gapOut (r : String) (k : Option String) (ts ex rc : Nat)
    (l : List Output) :
    chatBroadcasts (Output.broadcastSeqGap r k ts ex rc :: l) = chatBroadcasts l := rfl

@[simp] theorem chatBroadcasts_tool (p : AgentOut) (cs : List String) (l : List Output) :
    chatBroadcasts (Output.broadcastToolToConns p cs :: l) = chatBroadcasts l := rfl

@[simp] theorem chatBroadcasts_sessAgent (sk : String) (p : AgentOut) (l : List Output) :
    chatBroadcasts (Output.sendToSessionAgent sk p :: l) = chatBroadcasts l := rfl

@[simp] theorem chatBroadcasts_sessChat (sk : String) (p : ChatPayload) (l : List Output) :
    chatBroadcasts (Output.sendToSessionChat sk p :: l) = chatBroadcasts l := rfl

@[simp] theorem chatBroadcasts_clear (r : String) (l : List Output) :
    chatBroadcasts (Output.clearRunContext r :: l) = chatBroadcasts l := rfl

@[simp] theorem chatUnicasts_nil : chatUnicasts [] = [] := rfl

@[simp] theorem chatUnicasts_append (a b : List Output) :
    chatUnicasts (a ++ b) = chatUnicasts a ++ chatUnicasts b :=
  List.filterMap_append a b _

@[simp] theorem chatUnicasts_sessChat (sk : String) (p : ChatPayload) (l : List Output) :
    chatUnicasts (Output.sendToSessionChat sk p :: l) = p :: chatUnicasts l := rfl

@[simp] theorem chatUnicasts_chat (p : ChatPayload) (dr : Bool) (l : List Output) :
    chatUnicasts (Output.broadcastChat p dr :: l) = chatUnicasts l := rfl

@[simp] theorem chatUnicasts_agent (p : AgentOut) (l : List Output) :
    chatUnicasts (Output.broadcastAgent p :: l) = chatUnicasts l := rfl

@[simp] theorem chatUnicasts_gapOut (r : String) (k : Option String) (ts ex rc : Nat)
    (l : List Output) :
    chatUnicasts (Output.broadcastSeqGap r k ts ex rc :: l) = chatUnicasts l := rfl

@[simp] theorem chatUnicasts_tool (p : AgentOut) (cs : List String) (l : List Output) :
    chatUnicasts (Output.broadcastToolToConns p cs :: l) = chatUnicasts l := rfl

@[simp] theorem chatUnicasts_sessAgent (sk : String) (p : AgentOut) (l : List Output) :
    chatUnicasts (Output.sendToSessionAgent sk p :: l) = chatUnicasts l := rfl

@[simp] theorem chatUnicasts_clear (r : String) (l : List Output) :
    chatUnicasts (Output.clearRunContext r :: l) = chatUnicasts l := rfl

@[simp] theorem gapBroadcasts_nil : gapBroadcasts [] = [] := rfl

@[simp] theorem gapBroadcasts_append (a b : List Output) :
    gapBroadcasts (a ++ b) = gapBroadcasts a ++ gapBroadcasts b := by
  simp [gapBroadcasts, List.filter_append]

@[simp] theorem gapBroadcasts_gapOut (r : String) (k : Option String) (ts ex rc : Nat)
    (l : List Output) :
    gapBroadcasts (Output.broadcastSeqGap r k ts ex rc :: l) =
      Output.broadcastSeqGap r k ts ex rc :: gapBroadcasts l := rfl

@[simp] theorem gapBroadcasts_agent (p : AgentOut) (l : List Output) :
    gapBroadcasts (Output.broadcastAgent p :: l) = gapBroadcasts l := rfl

@[simp] theorem gapBroadcasts_chat (p : ChatPayload) (dr : Bool) (l : List Output) :
    gapBroadcasts (Output.broadcastChat p dr :: l) = gapBroadcasts l := rfl

@[simp] theorem gapBroadcasts_tool (p : AgentOut) (cs : List String) (l : List Output) :
    gapBroadcasts (Output.broadcastToolToConns p cs :: l) = gapBroadcasts l := rfl

@[simp] theorem gapBroadcasts_sessAgent (sk : String) (p : AgentOut) (l : List Output) :
    gapBroadcasts (Output.sendToSessionAgent sk p :: l) = gapBroadcasts l := rfl

@[simp] theorem gapBroadcasts_sessChat (sk : String) (p : ChatPayload) (l : List Output) :
    gapBroadcasts (Output.sendToSessionChat sk p :: l) = gapBroadcasts l := rfl

@[simp] theorem gapBroadcasts_clear (r : String) (l : List Output) :
    gapBroadcasts (Output.clearRunContext r :: l) = gapBroadcasts l := rfl

/-! ### Structural lemmas about the handler phases -/

theorem lifecycleTail_agentRunSeq (now : Nat) (st : HandlerState) (evt : AgentEventPayload) :
    (lifecycleTail now st evt).1.agentRunSeq = st.agentRunSeq := by
  unfold lifecycleTail
  split <;> rfl

theorem lifecycleTail_gap (now : Nat) (st : HandlerState) (evt : AgentEventPayload) :
    gapBroadcasts (lifecycleTail now st evt).2 = [] := by
  unfold lifecycleTail
  split <;> rfl

theorem emitChatDelta_gap (env : HandlerEnv) (now : Nat) (b : SMap String) (d : SMap Nat)
    (sk cid : String) (q : Nat) (t : String) :
    gapBroadcasts (emitChatDelta env now b d sk cid q t).2.2 = [] := by
  unfold emitChatDelta
  dsimp only
  split
  · rfl
  · split <;> rfl

theorem emitChatFinal_gap (env : HandlerEnv) (now : Nat) (b : SMap String) (d : SMap Nat)
    (sk cid : String) (q : Nat) (jd : Bool) (er : Option String) :
    gapBroadcasts (emitChatFinal env now b d sk cid q jd er).2.2 = [] := by
  unfold emitChatFinal
  dsimp only
  split
  · split <;> rfl
  · rfl

theorem sessionPhase_agentRunSeq (env : HandlerEnv) (now : Nat) (st : HandlerState)
    (evt : AgentEventPayload) (sk : Option String) (cid : String) (ab : Bool)
    (cl : Option ChatRunEntry) (it : Bool) (tp ap : AgentOut) :
    (sessionPhase env now st evt sk cid ab cl it tp ap).1.agentRunSeq = st.agentRunSeq := by
  unfold sessionPhase
  cases sk with
  | none => rfl
  | some s =>
    dsimp only
    split
    · rfl
    · split
      · cases cl with
        | some l =>
          cases hs : (regShift st.registry evt.runId).1 with
          | none => rfl
          | some f => rfl
        | none => rfl
      · split
        · rfl
        · rfl

theorem sessionPhase_gap (env : HandlerEnv) (now : Nat) (st : HandlerState)
    (evt : AgentEventPayload) (sk : Option String) (cid : String) (ab : Bool)
    (cl : Option ChatRunEntry) (it : Bool) (tp ap : AgentOut) :
    gapBroadcasts (sessionPhase env now st evt sk cid ab cl it tp ap).2.1 = [] := by
  unfold sessionPhase
  cases sk with
  | none => rfl
  | some s =>
    dsimp only
    split
    · simp [emitChatDelta_gap]
    · split
      · cases cl with
        | some l =>
          cases hs : (regShift st.registry evt.runId).1 with
          | none => rfl
          | some f => simp [emitChatFinal_gap]
        | none => simp [emitChatFinal_gap]
      · split
        · rfl
        · rfl

/-! ### Claim C5: tool events with verbosity off are fully suppressed -/

/-- C5: a tool-stream event whose resolved verbosity is `"off"` produces no
output at all — no general broadcast, no targeted tool broadcast, no session
unicast, no chat delta or final — and the only state change is recording
`evt.seq` as the last-seen sequence for `evt.runId`. -/
theorem agentHandler_tool_off (env : HandlerEnv) (now : Nat) (st : HandlerState)
    (evt : AgentEventPayload) (hstream : evt.stream = "tool")
    (hverb : env.resolveToolVerbose evt.runId (sessionKeyOf env st evt) = "off") :
    handleAgentEvent env now st evt =
      ({ st with agentRunSeq := mapSet st.agentRunSeq evt.runId evt.seq }, []) := by
  unfold handleAgentEvent
  rw [if_pos ⟨hstream, hverb⟩]

theorem agentHandler_tool_off_witness :
    handleAgentEvent envFix 7 stSeq evtTool =
      ({ stSeq with agentRunSeq := mapSet stSeq.agentRunSeq "run-2" 5 }, []) := by
  exact agentHandler_tool_off envFix 7 stSeq evtTool rfl rfl

/-! ### Claim C4: sequence-gap detection -/

theorem fanOf_gap (env : HandlerEnv) (now : Nat) (st : HandlerState)
    (evt : AgentEventPayload) : gapBroadcasts (fanOf env now st evt).1 = [] := by
  unfold fanOf
  split
  · dsimp only
    split
    · split <;> rfl
    · rfl
  · rfl

theorem fanOf_nonTool (env : HandlerEnv) (now : Nat) (st : HandlerState)
    (evt : AgentEventPayload) (h : ¬evt.stream = "tool") :
    fanOf env now st evt =
      ([Output.broadcastAgent (agentPayloadOf env st evt)],
        (seqSetState st evt).toolRecipients) := by
  unfold fanOf
  rw [if_neg h]

theorem processEvent_agentRunSeq (env : HandlerEnv) (now : Nat) (st : HandlerState)
    (evt : AgentEventPayload) :
    (processEvent env now st evt).1.agentRunSeq = mapSet st.agentRunSeq evt.runId evt.seq := by
  unfold processEvent
  dsimp only
  split
  · rw [sessionPhase_agentRunSeq]
    simp [midState, seqSetState]
  · rw [lifecycleTail_agentRunSeq, sessionPhase_agentRunSeq]
    simp [midState, seqSetState]

theorem processEvent_outputs (env : HandlerEnv) (now : Nat) (st : HandlerState)
    (evt : AgentEventPayload) :
    ∃ rest : List Output,
      (processEvent env now st evt).2 = gapOutsOf env now st evt ++ rest ∧
      gapBroadcasts rest = [] ∧
      (¬evt.stream = "tool" →
        Output.broadcastAgent (agentPayloadOf env st evt) ∈ rest) := by
  unfold processEvent
  dsimp only
  split
  · refine ⟨_, rfl, ?_, ?_⟩
    · simp [fanOf_gap, sessionPhase_gap]
    · intro h
      simp [fanOf_nonTool env now st evt h]
  · refine ⟨_, rfl, ?_, ?_⟩
    · simp [fanOf_gap, sessionPhase_gap, lifecycleTail_gap]
    · intro h
      simp [fanOf_nonTool env now st evt h]

/-- C4 (amended): for every incoming agent event the recorded sequence for
`evt.runId` is updated to `evt.seq`; a tool-stream event with resolved
verbosity `"off"` is suppressed before the gap check and emits nothing at
all; for every other event, if `evt.seq` is not exactly `last + 1` (with
`last` the recorded sequence, default 0) exactly one synthetic seq-gap error
broadcast with `expected = last + 1` and `received = evt.seq` is emitted, as
the first emission, and the real event is still delivered (non-tool events
reach the general broadcast); with no gap, no gap broadcast is emitted. -/
theorem agentHandler_seq_gap (env : HandlerEnv) (now : Nat) (st : HandlerState)
    (evt : AgentEventPayload) :
    mapGet (handleAgentEvent env now st evt).1.agentRunSeq evt.runId = some evt.seq ∧
    ((evt.stream = "tool" ∧
        env.resolveToolVerbose evt.runId (sessionKeyOf env st evt) = "off") →
      (handleAgentEvent env now st evt).2 = []) ∧
    (¬(evt.stream = "tool" ∧
        env.resolveToolVerbose evt.runId (sessionKeyOf env st evt) = "off") →
      (evt.seq ≠ lastSeqOf st evt + 1 →
        gapBroadcasts (handleAgentEvent env now st evt).2 =
          [Output.broadcastSeqGap evt.runId (sessionKeyOf env st evt) now
            (lastSeqOf st evt + 1) evt.seq] ∧
        (handleAgentEvent env now st evt).2.head? =
          some (Output.broadcastSeqGap evt.runId (sessionKeyOf env st evt) now
            (lastSeqOf st evt + 1) evt.seq)) ∧
      (evt.seq = lastSeqOf st evt + 1 →
        gapBroadcasts (handleAgentEvent env now st evt).2 = []) ∧
      (¬evt.stream = "tool" →
        Output.broadcastAgent (agentPayloadOf env st evt) ∈
          (handleAgentEvent env now st evt).2)) := by
  by_cases hoff : evt.stream = "tool" ∧
      env.resolveToolVerbose evt.runId (sessionKeyOf env st evt) = "off"
  · unfold handleAgentEvent
    rw [if_pos hoff]
    exact ⟨by simp [mapGet_set], fun _ => rfl, fun hc => absurd hoff hc⟩
  · unfold handleAgentEvent
    rw [if_neg hoff]
    obtain ⟨rest, hout, hgaprest, hmem⟩ := processEvent_outputs env now st evt
    refine ⟨?_, fun hc => absurd hc hoff, fun _ => ⟨?_, ?_, ?_⟩⟩
    · rw [processEvent_agentRunSeq]
      simp [mapGet_set]
    · intro hgap
      constructor
      · rw [hout]
        simp [gapOutsOf, hgap, hgaprest]
      · rw [hout]
        simp [gapOutsOf, hgap]
    · intro hgap
      rw [hout]
      simp [gapOutsOf, hgap, hgaprest]
    · intro hstream
      rw [hout]
      simp [hmem hstream]

/-- C4 counterexample: a tool-stream event with resolved verbosity `"off"`
arriving with sequence 5 while the last-seen sequence is 3 emits nothing —
in particular no seq-gap error broadcast and no delivery of the event —
contradicting the claim that every incoming event with a gap produces a gap
broadcast and is still delivered. -/
theorem agentHandler_seq_gap_counterexample :
    evtTool.seq ≠ (mapGet stSeq.agentRunSeq evtTool.runId).getD 0 + 1 ∧
    (handleAgentEvent envFix 7 stSeq evtTool).2 = [] :=
  ⟨by decide, rfl⟩

theorem agentHandler_seq_gap_witness :
    mapGet (handleAgentEvent envFix 50 stSeqA evtHello).1.agentRunSeq "run-1" = some 1 ∧
    gapBroadcasts (handleAgentEvent envFix 50 stSeqA evtHello).2 =
      [Output.broadcastSeqGap "run-1" (some "sess") 50 4 1] := by
  have h := agentHandler_seq_gap envFix 50 stSeqA evtHello
  refine ⟨h.1, ?_⟩
  have h3 := h.2.2 (by decide)
  exact (h3.1 (by decide)).1

/-! ### Claim C1: delta buffering and throttling -/

theorem handleAgentEvent_nonTool (env : HandlerEnv) (now : Nat) (st : HandlerState)
    (evt : AgentEventPayload) (h : ¬evt.stream = "tool") :
    handleAgentEvent env now st evt = processEvent env now st evt := by
  unfold handleAgentEvent
  rw [if_neg (fun hc => h hc.1)]

theorem gapOutsOf_chat (env : HandlerEnv) (now : Nat) (st : HandlerState)
    (evt : AgentEventPayload) : chatBroadcasts (gapOutsOf env now st evt) = [] := by
  unfold gapOutsOf
  split <;> rfl

theorem gapOutsOf_unicast (env : HandlerEnv) (now : Nat) (st : HandlerState)
    (evt : AgentEventPayload) : chatUnicasts (gapOutsOf env now st evt) = [] := by
  unfold gapOutsOf
  split <;> rfl

theorem emitChatDelta_spec (env : HandlerEnv) (now : Nat) (b : SMap String) (d : SMap Nat)
    (sk cid : String) (q : Nat) (t : String)
    (hsup : env.suppressHeartbeat cid = false) :
    (emitChatDelta env now b d sk cid q t).1 = mapSet b cid t ∧
    (now - (mapGet d cid).getD 0 < 150 →
      (emitChatDelta env now b d sk cid q t).2.1 = d ∧
      (emitChatDelta env now b d sk cid q t).2.2 = []) ∧
    (¬now - (mapGet d cid).getD 0 < 150 →
      (emitChatDelta env now b d sk cid q t).2.1 = mapSet d cid now ∧
      (emitChatDelta env now b d sk cid q t).2.2 =
        [Output.broadcastChat (deltaPayload sk cid q now t) true,
          Output.sendToSessionChat sk (deltaPayload sk cid q now t)]) := by
  unfold emitChatDelta
  dsimp only
  by_cases hthr : now - (mapGet d cid).getD 0 < 150
  · rw [if_pos hthr]
    exact ⟨rfl, fun _ => ⟨rfl, rfl⟩, fun hc => absurd hthr hc⟩
  · rw [if_neg hthr]
    refine ⟨rfl, fun hc => absurd hc hthr, fun _ => ⟨rfl, ?_⟩⟩
    simp [hsup]

theorem sessionPhase_delta (env : HandlerEnv) (now : Nat) (st : HandlerState)
    (evt : AgentEventPayload) (sk cid : String) (cl : Option ChatRunEntry)
    (tp ap : AgentOut) (t : String)
    (hstream : evt.stream = "assistant")
    (htext : evt.data.bind EventData.text = some t) :
    sessionPhase env now st evt (some sk) cid false cl false tp ap =
      ({ st with
          buffers := (emitChatDelta env now st.buffers st.deltaSentAt sk cid evt.seq t).1,
          deltaSentAt :=
            (emitChatDelta env now st.buffers st.deltaSentAt sk cid evt.seq t).2.1 },
        Output.sendToSessionAgent sk ap ::
          (emitChatDelta env now st.buffers st.deltaSentAt sk cid evt.seq t).2.2,
        false) := by
  unfold sessionPhase
  dsimp only
  rw [if_pos ⟨rfl, hstream, by rw [htext]; rfl⟩, htext]
  simp

theorem processEvent_delta (env : HandlerEnv) (now : Nat) (st : HandlerState)
    (evt : AgentEventPayload) (t sk : String)
    (hstream : evt.stream = "assistant")
    (htext : evt.data.bind EventData.text = some t)
    (hsk : sessionKeyOf env st evt = some sk)
    (hab : isAbortedOf st evt = false) :
    processEvent env now st evt =
      ({ seqSetState st evt with
          buffers := (emitChatDelta env now st.buffers st.deltaSentAt sk
            (clientRunIdOf st evt) evt.seq t).1,
          deltaSentAt := (emitChatDelta env now st.buffers st.deltaSentAt sk
            (clientRunIdOf st evt) evt.seq t).2.1 },
        gapOutsOf env now st evt ++
          ([Output.broadcastAgent (agentPayloadOf env st evt)] ++
            ((Output.sendToSessionAgent sk (agentPayloadOf env st evt) ::
              (emitChatDelta env now st.buffers st.deltaSentAt sk
                (clientRunIdOf st evt) evt.seq t).2.2) ++ []))) := by
  have htool : ¬evt.stream = "tool" := by rw [hstream]; decide
  have hdec : decide (evt.stream = "tool") = false := by rw [hstream]; decide
  have hend : isEndPhase evt = false := by
    unfold isEndPhase lifecyclePhaseOf
    rw [hstream, if_neg (by decide : ¬("assistant" : String) = "lifecycle")]
    rfl
  unfold processEvent
  dsimp only
  rw [fanOf_nonTool env now st evt htool, hsk, hab, hdec]
  dsimp only
  rw [sessionPhase_delta env now _ evt sk (clientRunIdOf st evt) (chatLinkOf st evt)
    _ _ t hstream htext]
  simp [midState, fanOf_nonTool env now st evt htool, seqSetState, lifecycleTail, hend]

/-- C1: for an assistant-stream event carrying string text, on a run with a
known session key that is not aborted, the handler unconditionally replaces
the buffered text for the clientRunId with the event's text; it broadcasts
(and unicasts) a `"delta"` chat payload carrying that text if and only if at
least 150 ms have elapsed since the recorded last delta broadcast for that
clientRunId (with no prior record the first event broadcasts, the clock
being at least 150 ms), updating the throttle timestamp to the current time;
when the broadcast is throttled, no chat payload is emitted at all and the
throttle timestamp is left unchanged, so only the buffer changes. -/
theorem agentHandler_delta_throttle (env : HandlerEnv) (now : Nat) (st : HandlerState)
    (evt : AgentEventPayload) (t sk : String)
    (hstream : evt.stream = "assistant")
    (htext : evt.data.bind EventData.text = some t)
    (hsk : sessionKeyOf env st evt = some sk)
    (hab : isAbortedOf st evt = false)
    (hsup : env.suppressHeartbeat (clientRunIdOf st evt) = false)
    (hnow : 150 ≤ now) :
    mapGet (handleAgentEvent env now st evt).1.buffers (clientRunIdOf st evt) = some t ∧
    (match mapGet st.deltaSentAt (clientRunIdOf st evt) with
     | some l =>
         (150 ≤ now - l →
           chatBroadcasts (handleAgentEvent env now st evt).2 =
             [deltaPayload sk (clientRunIdOf st evt) evt.seq now t] ∧
           chatUnicasts (handleAgentEvent env now st evt).2 =
             [deltaPayload sk (clientRunIdOf st evt) evt.seq now t] ∧
           mapGet (handleAgentEvent env now st evt).1.deltaSentAt
             (clientRunIdOf st evt) = some now) ∧
         (now - l < 150 →
           chatBroadcasts (handleAgentEvent env now st evt).2 = [] ∧
           chatUnicasts (handleAgentEvent env now st evt).2 = [] ∧
           mapGet (handleAgentEvent env now st evt).1.deltaSentAt
             (clientRunIdOf st evt) = some l)
     | none =>
         chatBroadcasts (handleAgentEvent env now st evt).2 =
           [deltaPayload sk (clientRunIdOf st evt) evt.seq now t] ∧
         chatUnicasts (handleAgentEvent env now st evt).2 =
           [deltaPayload sk (clientRunIdOf st evt) evt.seq now t] ∧
         mapGet (handleAgentEvent env now st evt).1.deltaSentAt
           (clientRunIdOf st evt) = some now) := by
  have htool : ¬evt.stream = "tool" := by rw [hstream]; decide
  rw [handleAgentEvent_nonTool env now st evt htool,
    processEvent_delta env now st evt t sk hstream htext hsk hab]
  obtain ⟨hb, hskip, hsend⟩ := emitChatDelta_spec env now st.buffers st.deltaSentAt sk
    (clientRunIdOf st evt) evt.seq t hsup
  refine ⟨?_, ?_⟩
  · dsimp only
    rw [hb, mapGet_set]
    simp
  · rcases hl : mapGet st.deltaSentAt (clientRunIdOf st evt) with _ | l
    · have hns : ¬now - (mapGet st.deltaSentAt (clientRunIdOf st evt)).getD 0 < 150 := by
        rw [hl]
        simpa using hnow
      obtain ⟨hd, houts⟩ := hsend hns
      refine ⟨?_, ?_, ?_⟩
      · dsimp only
        rw [houts]
        simp [gapOutsOf_chat]
      · dsimp only
        rw [houts]
        simp [gapOutsOf_unicast]
      · dsimp only
        rw [hd, mapGet_set]
        simp
    · rw [hl] at hskip hsend
      simp only [Option.getD_some] at hskip hsend
      constructor
      · intro hge
        obtain ⟨hd, houts⟩ := hsend (not_lt.mpr hge)
        refine ⟨?_, ?_, ?_⟩
        · dsimp only
          rw [houts]
          simp [gapOutsOf_chat]
        · dsimp only
          rw [houts]
          simp [gapOutsOf_unicast]
        · dsimp only
          rw [hd, mapGet_set]
          simp
      · intro hlt
        obtain ⟨hd, houts⟩ := hskip hlt
        refine ⟨?_, ?_, ?_⟩
        · dsimp only
          rw [houts]
          simp [gapOutsOf_chat]
        · dsimp only
          rw [houts]
          simp [gapOutsOf_unicast]
        · dsimp only
          rw [hd, hl]

theorem agentHandler_delta_throttle_witness :
    mapGet (handleAgentEvent envFix 1000 stEmpty evtHello).1.buffers "run-1" =
      some "Hello" ∧
    chatBroadcasts (handleAgentEvent envFix 1000 stEmpty evtHello).2 =
      [deltaPayload "sess" "run-1" 1 1000 "Hello"] ∧
    mapGet (handleAgentEvent envFix 1000 stEmpty evtHello).1.deltaSentAt "run-1" =
      some 1000 := by
  have h := agentHandler_delta_throttle envFix 1000 stEmpty evtHello "Hello" "sess"
    rfl rfl rfl rfl rfl (by decide)
  exact ⟨h.1, h.2.1, h.2.2.2⟩

/-! ### Claims C2 and C3: finalization and aborted-run purge -/

theorem emitChatFinal_spec (env : HandlerEnv) (now : Nat) (b : SMap String) (d : SMap Nat)
    (sk cid : String) (q : Nat) (er : Option String) (jd : Bool)
    (hsup : env.suppressHeartbeat cid = false) :
    (emitChatFinal env now b d sk cid q jd er).1 = mapDelete b cid ∧
    (emitChatFinal env now b d sk cid q jd er).2.1 = mapDelete d cid ∧
    (emitChatFinal env now b d sk cid q jd er).2.2 =
      [Output.broadcastChat (finalPayload sk cid q now jd (mapGet b cid) er) false,
        Output.sendToSessionChat sk (finalPayload sk cid q now jd (mapGet b cid) er)] := by
  unfold emitChatFinal
  dsimp only
  cases jd
  · exact ⟨rfl, rfl, rfl⟩
  · refine ⟨rfl, rfl, ?_⟩
    simp [hsup]

theorem sessionPhase_final_noLink (env : HandlerEnv) (now : Nat) (st : HandlerState)
    (evt : AgentEventPayload) (sk cid : String) (tp ap : AgentOut)
    (hstream : evt.stream = "lifecycle")
    (hend : isEndPhase evt = true) :
    sessionPhase env now st evt (some sk) cid false none false tp ap =
      ({ st with
          buffers := (emitChatFinal env now st.buffers st.deltaSentAt sk evt.runId evt.seq
            (lifecyclePhaseOf evt ≠ some "error") (evt.data.bind EventData.error)).1,
          deltaSentAt := (emitChatFinal env now st.buffers st.deltaSentAt sk evt.runId evt.seq
            (lifecyclePhaseOf evt ≠ some "error") (evt.data.bind EventData.error)).2.1 },
        Output.sendToSessionAgent sk ap ::
          (emitChatFinal env now st.buffers st.deltaSentAt sk evt.runId evt.seq
            (lifecyclePhaseOf evt ≠ some "error") (evt.data.bind EventData.error)).2.2,
        false) := by
  unfold sessionPhase
  dsimp only
  rw [if_neg (fun hc => (by decide : ¬("lifecycle" : String) = "assistant")
      (hstream ▸ hc.2.1)),
    if_pos ⟨rfl, hend⟩]
  simp

theorem sessionPhase_final_link (env : HandlerEnv) (now : Nat) (st : HandlerState)
    (evt : AgentEventPayload) (sk cid : String) (tp ap : AgentOut)
    (l : ChatRunEntry) (rest : List ChatRunEntry)
    (hstream : evt.stream = "lifecycle")
    (hend : isEndPhase evt = true)
    (hq : mapGet st.registry evt.runId = some (l :: rest)) :
    sessionPhase env now st evt (some sk) cid false (some l) false tp ap =
      ({ st with
          registry := if rest = [] then mapDelete st.registry evt.runId
            else mapSet st.registry evt.runId rest,
          buffers := (emitChatFinal env now st.buffers st.deltaSentAt l.sessionKey
            l.clientRunId evt.seq (lifecyclePhaseOf evt ≠ some "error")
            (evt.data.bind EventData.error)).1,
          deltaSentAt := (emitChatFinal env now st.buffers st.deltaSentAt l.sessionKey
            l.clientRunId evt.seq (lifecyclePhaseOf evt ≠ some "error")
            (evt.data.bind EventData.error)).2.1 },
        Output.sendToSessionAgent sk ap ::
          (emitChatFinal env now st.buffers st.deltaSentAt l.sessionKey l.clientRunId evt.seq
            (lifecyclePhaseOf evt ≠ some "error") (evt.data.bind EventData.error)).2.2,
        false) := by
  have hshift : regShift st.registry evt.runId =
      (some l, if rest = [] then mapDelete st.registry evt.runId
        else mapSet st.registry evt.runId rest) := by
    simp [regShift, hq]
  unfold sessionPhase
  dsimp only
  rw [if_neg (fun hc => (by decide : ¬("lifecycle" : String) = "assistant")
      (hstream ▸ hc.2.1)),
    if_pos ⟨rfl, hend⟩, hshift]
  simp

theorem sessionPhase_aborted (env : HandlerEnv) (now : Nat) (st : HandlerState)
    (evt : AgentEventPayload) (sk cid : String) (cl : Option ChatRunEntry)
    (tp ap : AgentOut)
    (hend : isEndPhase evt = true) :
    sessionPhase env now st evt (some sk) cid true cl false tp ap =
      ({ st with
          abortedRuns := mapDelete (mapDelete st.abortedRuns cid) evt.runId,
          buffers := mapDelete st.buffers cid,
          deltaSentAt := mapDelete st.deltaSentAt cid,
          registry := match cl with
            | some _ => (regRemove st.registry evt.runId cid (some sk)).2
            | none => st.registry },
        [Output.sendToSessionAgent sk ap], false) := by
  unfold sessionPhase
  dsimp only
  rw [if_neg (fun hc => (by decide : ¬true = false) hc.1),
    if_neg (fun hc => (by decide : ¬true = false) hc.1),
    if_pos ⟨rfl, hend⟩]
  simp

/-- C2: a lifecycle event with phase `"end"` or `"error"` on a non-aborted
run with a known session key emits exactly one finalization chat payload for
the correlated clientRunId — with `"end"` a `"final"` payload carrying the
trimmed buffered text (message omitted when empty), with `"error"` an error
payload — both broadcast and unicast; when a chat-run correlation existed
its head entry is popped from the registry; afterwards neither `buffers` nor
`deltaSentAt` holds an entry for that clientRunId. -/
theorem agentHandler_finalize (env : HandlerEnv) (now : Nat) (st : HandlerState)
    (evt : AgentEventPayload) (ph sk : String)
    (hstream : evt.stream = "lifecycle")
    (hphase : evt.data.bind EventData.phase = some ph)
    (hph : ph = "end" ∨ ph = "error")
    (hsk : sessionKeyOf env st evt = some sk)
    (hab : isAbortedOf st evt = false)
    (hsup : env.suppressHeartbeat (clientRunIdOf st evt) = false) :
    chatBroadcasts (handleAgentEvent env now st evt).2 =
      [finalPayload sk (clientRunIdOf st evt) evt.seq now (ph ≠ "error")
        (mapGet st.buffers (clientRunIdOf st evt)) (evt.data.bind EventData.error)] ∧
    chatUnicasts (handleAgentEvent env now st evt).2 =
      [finalPayload sk (clientRunIdOf st evt) evt.seq now (ph ≠ "error")
        (mapGet st.buffers (clientRunIdOf st evt)) (evt.data.bind EventData.error)] ∧
    mapGet (handleAgentEvent env now st evt).1.buffers (clientRunIdOf st evt) = none ∧
    mapGet (handleAgentEvent env now st evt).1.deltaSentAt (clientRunIdOf st evt) = none ∧
    (∀ l rest, mapGet st.registry evt.runId = some (l :: rest) →
      mapGet (handleAgentEvent env now st evt).1.registry evt.runId =
        if rest = [] then none else some rest) := by
  have htool : ¬evt.stream = "tool" := by rw [hstream]; decide
  have hdec : decide (evt.stream = "tool") = false := by rw [hstream]; decide
  have hlp : lifecyclePhaseOf evt = some ph := by
    unfold lifecyclePhaseOf
    rw [hstream, if_pos rfl, hphase]
  have hend : isEndPhase evt = true := by
    unfold isEndPhase
    rw [hlp]
    rcases hph with h | h <;> subst h <;> rfl
  have hjd : decide (lifecyclePhaseOf evt ≠ some "error") = decide (ph ≠ "error") := by
    rw [hlp]
    simp
  rw [← hjd, handleAgentEvent_nonTool env now st evt htool]
  unfold processEvent
  dsimp only
  rw [fanOf_nonTool env now st evt htool, hsk, hab, hdec]
  dsimp only
  rcases hcl : chatLinkOf st evt with _ | l
  · have hcid : clientRunIdOf st evt = evt.runId := by
      unfold clientRunIdOf
      rw [hcl]
    rw [sessionPhase_final_noLink env now _ evt sk (clientRunIdOf st evt) _ _ hstream hend]
    dsimp only [midState, seqSetState]
    rw [hcid] at hsup ⊢
    obtain ⟨hbuf, hdsa, houts⟩ := emitChatFinal_spec env now st.buffers st.deltaSentAt sk
      evt.runId evt.seq (evt.data.bind EventData.error)
      (decide (lifecyclePhaseOf evt ≠ some "error")) hsup
    rw [hbuf, hdsa, houts]
    refine ⟨?_, ?_, ?_, ?_, ?_⟩
    · simp [lifecycleTail, hend, gapOutsOf_chat]
    · simp [lifecycleTail, hend, gapOutsOf_unicast]
    · simp [lifecycleTail, hend, mapGet_delete]
    · simp [lifecycleTail, hend, mapGet_delete]
    · intro l rest hq
      exfalso
      unfold chatLinkOf regPeek at hcl
      rw [hq] at hcl
      simp at hcl
  · have hcid : clientRunIdOf st evt = l.clientRunId := by
      unfold clientRunIdOf
      rw [hcl]
    have hskl : l.sessionKey = sk := by
      unfold sessionKeyOf at hsk
      rw [hcl] at hsk
      exact Option.some.inj hsk
    have hpk := hcl
    unfold chatLinkOf regPeek at hpk
    rcases hq : mapGet st.registry evt.runId with _ | q
    · rw [hq] at hpk
      simp at hpk
    · rw [hq] at hpk
      rcases q with _ | ⟨a, rest⟩
      · simp at hpk
      · simp at hpk
        subst hpk
        rw [sessionPhase_final_link env now (midState env now st evt) evt sk
          (clientRunIdOf st evt) _ _ a rest hstream hend hq]
        dsimp only [midState, seqSetState]
        rw [hcid] at hsup ⊢
        obtain ⟨hbuf, hdsa, houts⟩ := emitChatFinal_spec env now st.buffers st.deltaSentAt
          a.sessionKey a.clientRunId evt.seq (evt.data.bind EventData.error)
          (decide (lifecyclePhaseOf evt ≠ some "error")) hsup
        rw [hbuf, hdsa, houts, hskl]
        refine ⟨?_, ?_, ?_, ?_, ?_⟩
        · simp [lifecycleTail, hend, gapOutsOf_chat]
        · simp [lifecycleTail, hend, gapOutsOf_unicast]
        · simp [lifecycleTail, hend, mapGet_delete]
        · simp [lifecycleTail, hend, mapGet_delete]
        · intro l' rest' hq'
          obtain ⟨h1, h2⟩ : a = l' ∧ rest = rest' := by
            have := Option.some.inj hq'
            exact ⟨(List.cons.inj this).1, (List.cons.inj this).2⟩
          subst h1
          subst h2
          rcases hrest : rest with _ | ⟨b, brest⟩
          · simp [lifecycleTail, hend, mapGet_delete]
          · simp [lifecycleTail, hend, mapGet_set]

theorem agentHandler_finalize_witness :
    chatBroadcasts (handleAgentEvent envFix 500 stBuf evtEnd).2 =
      [finalPayload "sess" "run-3" 2 500 true (some " Hi there ") none] ∧
    mapGet (handleAgentEvent envFix 500 stBuf evtEnd).1.buffers "run-3" = none := by
  have h := agentHandler_finalize envFix 500 stBuf evtEnd "end" "sess"
    rfl rfl (Or.inl rfl) rfl rfl rfl
  exact ⟨h.1, h.2.2.1⟩

/-- C3: a lifecycle `"end"`/`"error"` event on a run previously marked
aborted (under either id) with a known session key emits no chat payload of
any kind, and purges all bookkeeping: both abort markers, the text buffer,
the throttle timestamp, and — when a chat-run correlation existed — the
correlated head entry of the session's registry queue (deleting the queue
when it empties); with no correlation the registry is untouched. -/
theorem agentHandler_aborted_purge (env : HandlerEnv) (now : Nat) (st : HandlerState)
    (evt : AgentEventPayload) (ph sk : String)
    (hstream : evt.stream = "lifecycle")
    (hphase : evt.data.bind EventData.phase = some ph)
    (hph : ph = "end" ∨ ph = "error")
    (hsk : sessionKeyOf env st evt = some sk)
    (hab : isAbortedOf st evt = true) :
    chatBroadcasts (handleAgentEvent env now st evt).2 = [] ∧
    chatUnicasts (handleAgentEvent env now st evt).2 = [] ∧
    mapGet (handleAgentEvent env now st evt).1.abortedRuns (clientRunIdOf st evt) = none ∧
    mapGet (handleAgentEvent env now st evt).1.abortedRuns evt.runId = none ∧
    mapGet (handleAgentEvent env now st evt).1.buffers (clientRunIdOf st evt) = none ∧
    mapGet (handleAgentEvent env now st evt).1.deltaSentAt (clientRunIdOf st evt) = none ∧
    (∀ l rest, mapGet st.registry evt.runId = some (l :: rest) →
      mapGet (handleAgentEvent env now st evt).1.registry evt.runId =
        if rest = [] then none else some rest) ∧
    (chatLinkOf st evt = none →
      (handleAgentEvent env now st evt).1.registry = st.registry) := by
  have htool : ¬evt.stream = "tool" := by rw [hstream]; decide
  have hdec : decide (evt.stream = "tool") = false := by rw [hstream]; decide
  have hlp : lifecyclePhaseOf evt = some ph := by
    unfold lifecyclePhaseOf
    rw [hstream, if_pos rfl, hphase]
  have hend : isEndPhase evt = true := by
    unfold isEndPhase
    rw [hlp]
    rcases hph with h | h <;> subst h <;> rfl
  rw [handleAgentEvent_nonTool env now st evt htool]
  unfold processEvent
  dsimp only
  rw [fanOf_nonTool env now st evt htool, hsk, hab, hdec]
  dsimp only
  rw [sessionPhase_aborted env now _ evt sk (clientRunIdOf st evt) (chatLinkOf st evt) _ _
    hend]
  dsimp only [midState, seqSetState]
  refine ⟨?_, ?_, ?_, ?_, ?_, ?_, ?_, ?_⟩
  · simp [lifecycleTail, hend, gapOutsOf_chat]
  · simp [lifecycleTail, hend, gapOutsOf_unicast]
  · simp [lifecycleTail, hend, mapGet_delete]
  · simp [lifecycleTail, hend, mapGet_delete]
  · simp [lifecycleTail, hend, mapGet_delete]
  · simp [lifecycleTail, hend, mapGet_delete]
  · intro l rest hq
    have hcl : chatLinkOf st evt = some l := by
      unfold chatLinkOf regPeek
      rw [hq]
      rfl
    have hcid : clientRunIdOf st evt = l.clientRunId := by
      unfold clientRunIdOf
      rw [hcl]
    have hskl : l.sessionKey = sk := by
      unfold sessionKeyOf at hsk
      rw [hcl] at hsk
      exact Option.some.inj hsk
    have hmatch : entryMatches (clientRunIdOf st evt) (some sk) l = true := by
      rw [hcid, ← hskl]
      unfold entryMatches
      by_cases h0 : l.sessionKey = "" <;> simp [h0]
    have h1 := removeFromQueue_found (clientRunIdOf st evt) (some sk) [] l rest
      (by simp) hmatch
    simp only [List.nil_append] at h1
    have hrem : regRemove st.registry evt.runId (clientRunIdOf st evt) (some sk) =
        (some l, if rest = [] then mapDelete st.registry evt.runId
          else mapSet st.registry evt.runId rest) := by
      simp [regRemove, hq, h1]
    rw [hcl]
    dsimp only
    rw [hrem]
    rcases hrest : rest with _ | ⟨b, brest⟩
    · simp [lifecycleTail, hend, mapGet_delete]
    · simp [lifecycleTail, hend, mapGet_set]
  · intro hnone
    rw [hnone]
    simp [lifecycleTail, hend]

theorem agentHandler_aborted_purge_witness :
    chatBroadcasts (handleAgentEvent envFix 999 stAborted evtEnd4).2 = [] ∧
    mapGet (handleAgentEvent envFix 999 stAborted evtEnd4).1.abortedRuns "run-4" = none ∧
    mapGet (handleAgentEvent envFix 999 stAborted evtEnd4).1.buffers "run-4" = none ∧
    mapGet (handleAgentEvent envFix 999 stAborted evtEnd4).1.registry "run-4" = none := by
  have h := agentHandler_aborted_purge envFix 999 stAborted evtEnd4 "end" "sess"
    rfl rfl (Or.inl rfl) rfl rfl
  refine ⟨h.1, h.2.2.1, h.2.2.2.2.1, ?_⟩
  have h7 := h.2.2.2.2.2.2.1 { sessionKey := "sess", clientRunId := "run-4" } [] rfl
  simpa using h7

/-! ### Claim C7: inbound channel message on a fresh session -/

/-- C7: an inbound channel message whose resolved session key has no
existing session-store entry under any candidate key creates an entry under
the primary store key with the freshly generated sessionId, zeroed token
counters and `sendPolicy:"allow"`, appends exactly one `role:"user"`
transcript line carrying the message text, and — when the dispatcher
resolved without throwing and an `onReply` callback was supplied — invokes
`onReply(channelId, accountId, msg.from, reply)` exactly once with the
non-empty trimmed final fragments joined by a blank-line separator, and not
at all when no final reply text accumulated. -/
theorem channelHandler_new_session (env : ChannelEnv) (channelId accountId : String)
    (msg : InboundMessage) (store : SMap SessionEntry)
    (hnew : ∀ k ∈ env.storeKeys (env.resolveSessionKey channelId msg.fromAddr),
      mapGet store k = none)
    (hok : env.dispatchOk = true)
    (hcb : env.hasOnReply = true) :
    (∃ e, mapGet (handleChannelMessage env channelId accountId msg store).1
        ((env.storeKeys (env.resolveSessionKey channelId msg.fromAddr)).head?.getD
          (env.resolveSessionKey channelId msg.fromAddr)) = some e ∧
      e.sessionId = env.freshSessionId ∧ e.inputTokens = 0 ∧ e.outputTokens = 0 ∧
      e.totalTokens = 0 ∧ e.sendPolicy = "allow") ∧
    transcriptAppends (handleChannelMessage env channelId accountId msg store).2 =
      [ChannelOutput.transcriptAppend env.freshSessionId "user" msg.text] ∧
    onReplyCalls (handleChannelMessage env channelId accountId msg store).2 =
      (if finalReplyParts env.deliveries = [] then []
       else [ChannelOutput.onReply channelId accountId msg.fromAddr
         (String.intercalate "\n\n" (finalReplyParts env.deliveries))]) := by
  have hfind : (env.storeKeys (env.resolveSessionKey channelId msg.fromAddr)).find?
      (fun k => (mapGet store k).isSome) = none := by
    rw [List.find?_eq_none]
    intro k hk
    simp [hnew k hk]
  unfold handleChannelMessage channelUpdateStore
  dsimp only
  rw [hfind]
  dsimp only
  refine ⟨?_, ?_, ?_⟩
  · refine ⟨freshSessionEntry env channelId msg, ?_, ?_, ?_, ?_, ?_, ?_⟩
    · rw [mapGet_set]
      simp
    · rfl
    · rfl
    · rfl
    · rfl
    · rfl
  · by_cases hp : finalReplyParts env.deliveries = []
    · simp [transcriptAppends, hok, hp, List.filter, freshSessionEntry]
    · simp [transcriptAppends, hok, hcb, hp, List.filter, freshSessionEntry]
  · by_cases hp : finalReplyParts env.deliveries = []
    · simp [onReplyCalls, hok, hp, List.filter, freshSessionEntry]
    · simp [onReplyCalls, hok, hcb, hp, List.filter, freshSessionEntry]

theorem channelHandler_new_session_witness :
    (∃ e, mapGet (handleChannelMessage envCh "spixi" "default" msgHi []).1
        ((envCh.storeKeys (envCh.resolveSessionKey "spixi" msgHi.fromAddr)).head?.getD
          (envCh.resolveSessionKey "spixi" msgHi.fromAddr)) = some e ∧
      e.sessionId = envCh.freshSessionId ∧ e.inputTokens = 0 ∧ e.outputTokens = 0 ∧
      e.totalTokens = 0 ∧ e.sendPolicy = "allow") ∧
    transcriptAppends (handleChannelMessage envCh "spixi" "default" msgHi []).2 =
      [ChannelOutput.transcriptAppend envCh.freshSessionId "user" msgHi.text] ∧
    onReplyCalls (handleChannelMessage envCh "spixi" "default" msgHi []).2 =
      (if finalReplyParts envCh.deliveries = [] then []
       else [ChannelOutput.onReply "spixi" "default" msgHi.fromAddr
         (String.intercalate "\n\n" (finalReplyParts envCh.deliveries))]) :=
  channelHandler_new_session envCh "spixi" "default" msgHi [] (fun _ _ => rfl) rfl rfl

end OpenClaw
